import Mathlib

/-!
Verification of the workflow orchestrator in `ext/sw.js` (screen-capture
workflow extension).

The service worker is embedded shallowly: every handler of
`chrome.runtime.onMessage` becomes a pure Lean function from the worker's
state to the worker's state (plus the list of outbound messages it emits),
parameterised by an `Env` record carrying the outcomes of the host /
external calls the handler awaits (job fetch, tab navigation, tab capture,
upload, URL parsing).  The `navigate` promise and the retrying messenger
`sendMessageWithRetry` are modelled separately as an event-fold and a
fuel-indexed loop, mirroring their control flow in the source.
-/

/-- Workflow status values, the five strings stored in `state.status` in
`sw.js`: `idle`, `fetching`, `navigating`, `awaiting_selection`,
`uploading`. -/
inductive Status where
  | idle
  | fetching
  | navigating
  | awaiting_selection
  | uploading
deriving DecidableEq, Repr

/-- One capture job, `{ id, url }` as produced by `normalizeJobsResponse`. -/
structure Job where
  id : String
  url : String
deriving DecidableEq, Repr

/-- Selection rectangle `{x, y, w, h}` reported by the in-page UI.  JS
numbers from the UI may be negative or oversized, hence `Int`. -/
structure Rect where
  x : Int
  y : Int
  w : Int
  h : Int
deriving DecidableEq, Repr

/-- The mutable singleton `state` object of `sw.js`: `status`, `jobs`,
`index`, `tabId` (`tabId : null` is `none`). -/
structure WorkflowState where
  status : Status
  jobs : List Job
  index : Nat
  tabId : Option Nat
deriving DecidableEq, Repr

/-- Full service-worker state: the `state` object plus the separate
`isUiVisible` global. -/
structure SwState where
  wf : WorkflowState
  isUiVisible : Bool
deriving DecidableEq, Repr

/-- Errors thrown inside `sw.js` run steps.  `hostError` stands for a
rejected host/API promise (failed `fetch`, `captureVisibleTab`, upload,
`GET /jobs` non-ok status, ...) carrying its message string. -/
inductive Err where
  | emptyQueue
  | urlNotAllowed (url : String)
  | jobNotFound
  | navigationTimeout
  | cropTooSmall
  | hostError (message : String)
deriving DecidableEq, Repr

/-- The `error.message` string `reportError` extracts from each error, as
thrown in the source. -/
def errMessage : Err → String
  | .emptyQueue => "Нет URL для обработки"
  | .urlNotAllowed url => "URL не разрешен: " ++ url
  | .jobNotFound => "Текущее задание не найдено"
  | .navigationTimeout => "Navigation timeout"
  | .cropTooSmall => "Cropped dimensions too small (minimum 5px required)"
  | .hostError m => m

/-- Outbound messages the worker sends to tab content scripts:
`START_SELECT`, `RESET_SELECTION{message}`, `UI_STATE{state,message}`,
`TOGGLE_UI{visible}`. -/
inductive OutMsg where
  | startSelect
  | resetSelection (message : String)
  | uiState (stateName : String) (message : String)
  | toggleUi (visible : Bool)
deriving DecidableEq, Repr

/-- Inbound signals dispatched by the `chrome.runtime.onMessage` listener,
one constructor per `msg.type` it matches; `unknown` covers a message with
no `type` field or an unrecognised one. -/
inductive Sig where
  | uiStart
  | uiSave (rect : Rect)
  | uiCancel
  | uiReady
  | hideUi
  | unknown
deriving DecidableEq, Repr

/-- Components of a parsed URL as exposed by the host `URL` constructor:
`protocol` (with trailing colon), `origin`, `pathname`. -/
structure URLParts where
  protocol : String
  origin : String
  pathname : String
deriving DecidableEq, Repr

/-- Outcomes of the external calls one handler invocation awaits.
`parse s = none` models `new URL(s)` throwing.  `fetched` is the result of
`normalizeJobsResponse(await apiGetJobs())` (the network call may reject or
return a non-ok status, both surfacing as a thrown error).  `navOk = false`
means the `navigate` promise rejected with its timeout.  `captured` is the
pixel size of the captured-and-decoded frame (`captureVisibleTab` followed
by `loadImage`), or the error either of them rejects with.  `uploadOk` is
the outcome of `apiUpload`. -/
structure Env where
  parse : String → Option URLParts
  fetched : Except Err (List Job)
  navOk : Bool
  captured : Except Err (Int × Int)
  uploadOk : Except Err Unit

/-- Modelled from the spec: `getJobAt` is imported from `ext/workflow.js`,
which is not among the provided sources.  Per the spec (§4.4 Remote Job
Client) it "extracts the job at a given position via a position-accessor
that returns absent rather than failing when out of range". -/
def getJobAt (jobs : List Job) (i : Nat) : Option Job :=
  jobs[i]?

/-- Strict-equality comparison `sender.tab?.id === state.tabId` as JS
evaluates it: the left side is a number or `undefined`, the right side a
number or `null`, and `undefined === null` is false, so the comparison
holds exactly when both sides are numbers and equal. -/
def tabEq : Option Nat → Option Nat → Bool
  | some a, some b => a == b
  | _, _ => false

/-- The `clamp(v, lo, hi)` helper: `Math.max(lo, Math.min(hi, v))`. -/
def clamp (v lo hi : Int) : Int :=
  max lo (min hi v)

/-- The pure geometry of `cropDataUrl(dataUrl, rect)`: the frame's decoded
pixel size (`img.width`, `img.height`, supplied by the host image decoder)
is taken as input, and the result is the clamped source region
`(sx, sy, sw, sh)` drawn onto the canvas, or the `CropTooSmall` error.
Canvas drawing and PNG re-encoding are host calls that consume the region
unchanged. -/
def cropDataUrl (width height : Int) (rect : Rect) : Except Err (Int × Int × Int × Int) :=
  let sx := clamp rect.x 0 (width - 1)
  let sy := clamp rect.y 0 (height - 1)
  let sw := clamp rect.w 1 (width - sx)
  let sh := clamp rect.h 1 (height - sy)
  if sw < 5 ∨ sh < 5 then
    .error .cropTooSmall
  else
    .ok (sx, sy, sw, sh)

/-- The configured allow list of `sw.js`. -/
def ALLOW_LIST : List String :=
  ["http://localhost:5177/", "<all_urls>"]

/-- The `isAllowed(url)` policy check, parameterised by the host URL
parser.  Rejects when the candidate does not parse or has a non-http(s)
scheme; accepts any such URL when the list contains the wildcard entry;
otherwise accepts when some entry parses to the same origin and a pathname
prefix of the candidate's pathname (entries that fail to parse are
skipped). -/
def isAllowed (parse : String → Option URLParts) (allowList : List String)
    (url : String) : Bool :=
  match parse url with
  | none => false
  | some u =>
    if u.protocol ≠ "http:" ∧ u.protocol ≠ "https:" then
      false
    else if allowList.contains "<all_urls>" then
      true
    else
      allowList.any fun allowed =>
        match parse allowed with
        | none => false
        | some a =>
          if u.origin ≠ a.origin then false
          else u.pathname.startsWith a.pathname

/-- The `notifyState(tabId, state, message)` fire-and-forget progress ping:
skipped when `tabId` is absent, otherwise one `UI_STATE` message (delivery
errors are swallowed and never affect state). -/
def notifyState (tabId : Option Nat) (stateName message : String) : List OutMsg :=
  match tabId with
  | none => []
  | some _ => [.uiState stateName message]

/-- The reset shape: the value of the `state` object at process start and
after every full reset. -/
def idleState : WorkflowState :=
  { status := .idle, jobs := [], index := 0, tabId := none }

/-- A step's result: the new workflow state and the outbound messages the
step emitted, in order. -/
abbrev StepOut := WorkflowState × List OutMsg

/-- The `resetState(message, notify)` transition: status back to `idle`,
`jobs`/`index` cleared; when `notify` is set and a tab is recorded, a
`RESET_SELECTION` (retried delivery) and a `UI_STATE` ping go to that tab;
`tabId` is cleared last. -/
def resetState (s : WorkflowState) (message : String) (notify : Bool) : StepOut :=
  let out :=
    if notify ∧ s.tabId.isSome then
      OutMsg.resetSelection message :: notifyState s.tabId "idle" message
    else []
  (idleState, out)

/-- The `reportError(error, tabId)` handler: logs, sends the error message
to the tab when one is known, and fully resets the state. -/
def reportError (e : Err) (tabId : Option Nat) : StepOut :=
  let m := errMessage e
  let out :=
    match tabId with
    | none => []
    | some _ => OutMsg.resetSelection m :: notifyState tabId "idle" m
  (idleState, out)

/-- The `processCurrentJob()` dispatch: when the cursor is past the queue,
a full notifying reset ("Готово"); otherwise the job's URL must pass
`isAllowed` (else `UrlNotAllowed` is thrown), the tab is navigated (a
timeout rejects the step), and on load the worker enters
`awaiting_selection`, sending `START_SELECT` plus a progress ping. -/
def processCurrentJob (env : Env) (s : WorkflowState) : Except Err StepOut :=
  match getJobAt s.jobs s.index with
  | none => .ok (resetState s "Готово" true)
  | some job =>
    if ¬ isAllowed env.parse ALLOW_LIST job.url then
      .error (.urlNotAllowed job.url)
    else if ¬ env.navOk then
      .error .navigationTimeout
    else
      .ok ({ s with status := .awaiting_selection },
        OutMsg.startSelect ::
          notifyState s.tabId "selecting" "Выберите область и нажмите Сохранить")

/-- Body of the `try` block of `startWorkflow`, run from the freshly
initialised `fetching` state: fetch and normalize the queue, fail with
`EmptyQueue` when it has zero jobs, else store it, move to `navigating`
and dispatch the first job. -/
def startWorkflowBody (env : Env) (s1 : WorkflowState) : Except Err StepOut :=
  match env.fetched with
  | .error e => .error e
  | .ok jobs =>
    if jobs.length = 0 then
      .error .emptyQueue
    else
      processCurrentJob env { s1 with jobs := jobs, status := .navigating }

/-- The state `startWorkflow(tabId)` installs synchronously before its
`try` block: `fetching`, the sender's tab, cursor 0, empty queue. -/
def fetchingState (tabId : Nat) : WorkflowState :=
  { status := .fetching, jobs := [], index := 0, tabId := some tabId }

/-- The `startWorkflow(tabId)` run step: overwrite the state with
`fetching`/`tabId`/empty queue, ping progress, run the body, and convert
any thrown error into `reportError(error, tabId)`. -/
def startWorkflow (env : Env) (tabId : Nat) : StepOut :=
  match startWorkflowBody env (fetchingState tabId) with
  | .ok r => (r.1, notifyState (some tabId) "idle" "Загрузка списка..." ++ r.2)
  | .error e =>
    ((reportError e (some tabId)).1,
      notifyState (some tabId) "idle" "Загрузка списка..." ++ (reportError e (some tabId)).2)

/-- Body of the `try` block of `handleSave`, run from the `uploading`
state: the current job must still exist (`jobNotFound` otherwise), the
visible tab is captured and decoded, cropped per the rectangle, uploaded,
and only then is `index` incremented and the next job dispatched. -/
def handleSaveBody (env : Env) (rect : Rect) (s1 : WorkflowState) : Except Err StepOut :=
  match getJobAt s1.jobs s1.index with
  | none => .error .jobNotFound
  | some _job =>
    match env.captured with
    | .error e => .error e
    | .ok (w, h) =>
      match cropDataUrl w h rect with
      | .error e => .error e
      | .ok _region =>
        match env.uploadOk with
        | .error e => .error e
        | .ok _ => processCurrentJob env { s1 with index := s1.index + 1 }

/-- The `handleSave(rect)` run step: status becomes `uploading`
synchronously, the body runs, and any thrown error is converted into
`reportError(error, state.tabId)`. -/
def handleSave (env : Env) (rect : Rect) (s : WorkflowState) : StepOut :=
  match handleSaveBody env rect { s with status := Status.uploading } with
  | .ok r => r
  | .error e => reportError e s.tabId

/-- The `syncUiState(tabId)` re-sync: re-sends the instruction matching
the current status without changing any state. -/
def syncUiState (s : WorkflowState) (tabId : Nat) : List OutMsg :=
  if s.status = Status.awaiting_selection then
    OutMsg.startSelect ::
      notifyState (some tabId) "selecting" "Выберите область и нажмите Сохранить"
  else
    notifyState (some tabId) "idle" "Готово"

/-- The `chrome.runtime.onMessage` listener: dispatch on `msg.type` with
the source's guards (status and sender-tab checks) ahead of each action. -/
def onMessage (env : Env) (sender : Option Nat) (sig : Sig) (s : SwState) :
    SwState × List OutMsg :=
  match sig with
  | .uiStart =>
    if s.wf.status ≠ Status.idle then (s, [])
    else
      match sender with
      | none => (s, [])
      | some tabId =>
        ({ s with wf := (startWorkflow env tabId).1 }, (startWorkflow env tabId).2)
  | .uiSave rect =>
    if s.wf.status ≠ Status.awaiting_selection then (s, [])
    else if ¬ tabEq sender s.wf.tabId then (s, [])
    else
      ({ s with wf := (handleSave env rect s.wf).1 }, (handleSave env rect s.wf).2)
  | .uiCancel =>
    if ¬ tabEq sender s.wf.tabId then (s, [])
    else
      ({ s with wf := (resetState s.wf "Готово" true).1 },
        (resetState s.wf "Готово" true).2)
  | .uiReady =>
    match sender with
    | none => (s, [])
    | some tabId => (s, syncUiState s.wf tabId)
  | .hideUi =>
    ({ s with isUiVisible := false }, [.toggleUi false])
  | .unknown => (s, [])

/-- The `chrome.action.onClicked` handler: with a truthy tab id (JS `0` is
falsy) it toggles `isUiVisible` and sends the toggle to the tab. -/
def actionClicked (tabIdRaw : Option Nat) (s : SwState) : SwState × List OutMsg :=
  match tabIdRaw with
  | none => (s, [])
  | some id =>
    if id = 0 then (s, [])
    else
      ({ s with isUiVisible := ¬ s.isUiVisible }, [.toggleUi (¬ s.isUiVisible)])

/-- One external event delivered to the worker: an inbound runtime message
(with its sender tab and the outcomes of the host calls its handler will
await) or a toolbar click. -/
inductive Event where
  | message (env : Env) (sender : Option Nat) (sig : Sig)
  | clicked (tabId : Option Nat)

/-- Event dispatch combining both listeners. -/
def handleEvent : Event → SwState → SwState × List OutMsg
  | .message env sender sig, s => onMessage env sender sig s
  | .clicked t, s => actionClicked t s

/-- State part of event dispatch. -/
def stepState (ev : Event) (s : SwState) : SwState :=
  (handleEvent ev s).1

/-- Process a list of events in arrival order. -/
def runEvents (evs : List Event) (s : SwState) : SwState :=
  evs.foldl (fun t ev => stepState ev t) s

/-- The worker's state at process start. -/
def initState : SwState :=
  { wf := idleState, isUiVisible := true }

/-- States the worker can be in after any sequence of events. -/
inductive Reachable : SwState → Prop where
  | init : Reachable initState
  | step (ev : Event) {s : SwState} : Reachable s → Reachable (stepState ev s)

/-- The 60-second navigation timeout of `navigate` (ms). -/
def navigationTimeoutMs : Nat := 60000

/-- The 250ms settle delay `navigate` waits after load-complete (ms). -/
def settleDelayMs : Nat := 250

/-- Events observable by a pending `navigate(tabId, url)` promise: a
`chrome.tabs.onUpdated` dispatch (`complete` is `info.status ===
"complete"`) or the firing of the armed 60-second timer, each stamped with
its time in ms. -/
inductive NavEvent where
  | update (updatedTabId : Nat) (complete : Bool) (time : Nat)
  | timerFire (time : Nat)
deriving DecidableEq, Repr

/-- Timestamp of a navigation event. -/
def NavEvent.time : NavEvent → Nat
  | .update _ _ t => t
  | .timerFire t => t

/-- Outcome of a `navigate` promise: resolution (at the given time, after
the settle delay) or rejection with the navigation timeout. -/
inductive NavOutcome where
  | resolved (time : Nat)
  | timedOut
deriving DecidableEq, Repr

/-- State of a pending `navigate` promise: the `settled` flag, whether the
`onUpdated` listener is still attached, whether the timer is still armed
(`clearTimeout` not yet called), and the delivered outcome, if any. -/
structure NavState where
  settled : Bool
  listenerAttached : Bool
  timerArmed : Bool
  outcome : Option NavOutcome
deriving DecidableEq, Repr

/-- The promise state just after `navigate` attaches its listener and
issues `chrome.tabs.update`. -/
def navInit : NavState :=
  { settled := false, listenerAttached := true, timerArmed := true, outcome := none }

/-- One event hitting the pending promise, following the source: the timer
callback (only if still armed) checks `settled`, detaches the listener and
rejects; the listener (only invoked while attached) checks `settled`, the
tab id and `info.status`, and on load-complete clears the timer, detaches
itself and schedules resolution after the settle delay. -/
def navStep (tabId : Nat) (s : NavState) : NavEvent → NavState
  | .timerFire _t =>
    if ¬ s.timerArmed then s
    else if s.settled then s
    else
      { settled := true, listenerAttached := false, timerArmed := false,
        outcome := some .timedOut }
  | .update updatedTabId complete t =>
    if ¬ s.listenerAttached then s
    else if s.settled then s
    else if updatedTabId ≠ tabId then s
    else if complete then
      { settled := true, listenerAttached := false, timerArmed := false,
        outcome := some (.resolved (t + settleDelayMs)) }
    else s

/-- A whole run of the pending promise over an event sequence. -/
def navRun (tabId : Nat) (events : List NavEvent) : NavState :=
  events.foldl (navStep tabId) navInit

/-- Declarative outcome: the first deciding event — a timer fire or a
load-complete update for the target tab — determines the promise's fate. -/
def navDecide (tabId : Nat) : List NavEvent → Option NavOutcome
  | [] => none
  | .timerFire _ :: _ => some .timedOut
  | .update uid complete t :: rest =>
    if uid = tabId ∧ complete then some (.resolved (t + settleDelayMs))
    else navDecide tabId rest

/-- A runtime message as passed to `chrome.tabs.sendMessage`; all messages
the worker sends carry a string `type` field. -/
structure ChromeMsg where
  type : String
deriving DecidableEq, Repr

/-- The `message && message.type ? message.type : undefined` expression of
the retry warning (an empty string is falsy in JS). -/
def msgTypeField (m : ChromeMsg) : Option String :=
  if m.type = "" then none else some m.type

/-- Observable trace of one `sendMessageWithRetry` call: its returned
boolean, how many send attempts were made, the `delay` calls performed (in
ms, in order), and the warning logged on exhaustion (attempt count and
message type), if any. -/
structure RetryTrace where
  result : Bool
  sends : Nat
  delays : List Nat
  warned : Option (Nat × Option String)
deriving DecidableEq, Repr

/-- The `for` loop of `sendMessageWithRetry`, by remaining iterations:
each iteration performs one `sendMessageOnce` (its outcome given by `ack`
at the attempt's index), returns on success, else waits 200ms and
continues. -/
def retryLoop (ack : Nat → Bool) (i : Nat) : Nat → Bool × Nat × List Nat
  | 0 => (false, 0, [])
  | r + 1 =>
    if ack i then (true, 1, [])
    else
      let (res, n, ds) := retryLoop ack (i + 1) r
      (res, n + 1, 200 :: ds)

/-- The `sendMessageWithRetry(tabId, message, attempts = 10)` messenger:
runs the loop, and when every attempt failed logs the warning with the
attempt count and the message's type and returns `false`.  It resolves a
boolean on every path — `sendMessageOnce` resolves `!lastError` and never
rejects — so the model is a total function into `RetryTrace`. -/
def sendMessageWithRetry (ack : Nat → Bool) (message : ChromeMsg)
    (attempts : Nat := 10) : RetryTrace :=
  let (res, n, ds) := retryLoop ack 0 attempts
  { result := res, sends := n, delays := ds,
    warned := if res then none else some (attempts, msgTypeField message) }

/-! ### Shape lemmas for the orchestrator's run steps -/

theorem resetState_fst (s : WorkflowState) (m : String) (n : Bool) :
    (resetState s m n).1 = idleState := rfl

theorem reportError_fst (e : Err) (t : Option Nat) :
    (reportError e t).1 = idleState := rfl

theorem tabEq_isSome {a b : Option Nat} (h : tabEq a b = true) : b.isSome = true := by
  cases a <;> cases b <;> simp [tabEq] at h ⊢

theorem tabEq_none (a : Option Nat) : tabEq a none = false := by
  cases a <;> rfl

theorem processCurrentJob_ok_shape {env : Env} {s : WorkflowState} {r : StepOut}
    (h : processCurrentJob env s = .ok r) :
    r.1 = idleState ∨ r.1 = { s with status := Status.awaiting_selection } := by
  unfold processCurrentJob at h
  split at h
  · left
    injection h with h
    rw [← h]
    rfl
  · split at h
    · simp at h
    · split at h
      · simp at h
      · right
        injection h with h
        rw [← h]

theorem startWorkflowBody_ok_shape {env : Env} {s1 : WorkflowState} {r : StepOut}
    (h : startWorkflowBody env s1 = .ok r) :
    r.1 = idleState ∨ ∃ jobs : List Job,
      r.1 = { s1 with jobs := jobs, status := Status.awaiting_selection } := by
  unfold startWorkflowBody at h
  split at h
  · simp at h
  · rename_i x jobs hf
    split at h
    · simp at h
    · rcases processCurrentJob_ok_shape h with h1 | h1
      · exact Or.inl h1
      · right
        refine ⟨jobs, ?_⟩
        rw [h1]

theorem startWorkflow_shape (env : Env) (t : Nat) :
    (startWorkflow env t).1 = idleState ∨
    ∃ jobs : List Job, (startWorkflow env t).1 =
      { status := Status.awaiting_selection, jobs := jobs, index := 0,
        tabId := some t } := by
  unfold startWorkflow
  rcases hb : startWorkflowBody env (fetchingState t) with e | r
  · exact Or.inl rfl
  · rcases startWorkflowBody_ok_shape hb with h1 | ⟨jobs, h1⟩
    · exact Or.inl h1
    · exact Or.inr ⟨jobs, h1⟩

theorem handleSaveBody_ok_shape {env : Env} {rect : Rect} {s1 : WorkflowState}
    {r : StepOut} (h : handleSaveBody env rect s1 = .ok r) :
    r.1 = idleState ∨
    r.1 = { s1 with status := Status.awaiting_selection, index := s1.index + 1 } := by
  unfold handleSaveBody at h
  split at h
  · simp at h
  · split at h
    · simp at h
    · split at h
      · simp at h
      · split at h
        · simp at h
        · rcases processCurrentJob_ok_shape h with h1 | h1
          · exact Or.inl h1
          · right; rw [h1]

theorem handleSave_shape (env : Env) (rect : Rect) (s : WorkflowState) :
    (handleSave env rect s).1 = idleState ∨
    (handleSave env rect s).1 =
      { s with status := Status.awaiting_selection, index := s.index + 1 } := by
  unfold handleSave
  rcases hb : handleSaveBody env rect { s with status := Status.uploading } with e | r
  · exact Or.inl rfl
  · rcases handleSaveBody_ok_shape hb with h1 | h1
    · exact Or.inl h1
    · exact Or.inr h1

/-! ### The reachable-state invariant -/

/-- The relation between `tabId` and `status` claimed invariant by the
spec: a tab is recorded exactly while a run is active. -/
def WfInv (s : SwState) : Prop :=
  s.wf.tabId.isSome = true ↔ s.wf.status ≠ Status.idle

theorem wfInv_init : WfInv initState := by
  simp [WfInv, initState, idleState]

theorem wfInv_of_wf_eq {s s' : SwState} (hw : s'.wf = s.wf) (h : WfInv s) : WfInv s' := by
  unfold WfInv at *
  rw [hw]
  exact h

theorem actionClicked_wf (t : Option Nat) (s : SwState) :
    (actionClicked t s).1.wf = s.wf := by
  unfold actionClicked
  cases t with
  | none => rfl
  | some id =>
    dsimp only
    split <;> rfl

theorem onMessage_uiStart_noop (env : Env) (sender : Option Nat) (s : SwState)
    (h : s.wf.status ≠ Status.idle ∨ sender = none) :
    onMessage env sender Sig.uiStart s = (s, []) := by
  simp only [onMessage]
  rcases h with h | h
  · rw [if_pos h]
  · subst h
    by_cases h1 : s.wf.status ≠ Status.idle
    · rw [if_pos h1]
    · rw [if_neg h1]

theorem onMessage_uiStart_go (env : Env) (t : Nat) (s : SwState)
    (h : ¬ s.wf.status ≠ Status.idle) :
    onMessage env (some t) Sig.uiStart s =
      ({ s with wf := (startWorkflow env t).1 }, (startWorkflow env t).2) := by
  simp only [onMessage]
  rw [if_neg h]

theorem onMessage_uiSave_noop (env : Env) (sender : Option Nat) (rect : Rect)
    (s : SwState)
    (h : s.wf.status ≠ Status.awaiting_selection ∨ tabEq sender s.wf.tabId = false) :
    onMessage env sender (Sig.uiSave rect) s = (s, []) := by
  simp only [onMessage]
  rcases h with h | h
  · rw [if_pos h]
  · by_cases h1 : s.wf.status ≠ Status.awaiting_selection
    · rw [if_pos h1]
    · rw [if_neg h1, if_pos (by simp [h])]

theorem onMessage_uiSave_go (env : Env) (sender : Option Nat) (rect : Rect)
    (s : SwState) (h1 : ¬ s.wf.status ≠ Status.awaiting_selection)
    (h2 : tabEq sender s.wf.tabId = true) :
    onMessage env sender (Sig.uiSave rect) s =
      ({ s with wf := (handleSave env rect s.wf).1 }, (handleSave env rect s.wf).2) := by
  simp only [onMessage]
  rw [if_neg h1, if_neg (by simp [h2])]

theorem onMessage_uiCancel_noop (env : Env) (sender : Option Nat) (s : SwState)
    (h : tabEq sender s.wf.tabId = false) :
    onMessage env sender Sig.uiCancel s = (s, []) := by
  simp only [onMessage]
  rw [if_pos (by simp [h])]

theorem onMessage_uiCancel_go (env : Env) (sender : Option Nat) (s : SwState)
    (h : tabEq sender s.wf.tabId = true) :
    onMessage env sender Sig.uiCancel s =
      ({ s with wf := (resetState s.wf "Готово" true).1 },
        (resetState s.wf "Готово" true).2) := by
  simp only [onMessage]
  rw [if_neg (by simp [h])]

theorem onMessage_uiReady_wf (env : Env) (sender : Option Nat) (s : SwState) :
    (onMessage env sender Sig.uiReady s).1.wf = s.wf := by
  simp only [onMessage]
  cases sender <;> rfl

theorem wfInv_step (ev : Event) (s : SwState) (h : WfInv s) : WfInv (stepState ev s) := by
  cases ev with
  | clicked t => exact wfInv_of_wf_eq (actionClicked_wf t s) h
  | message env sender sig =>
    show WfInv (onMessage env sender sig s).1
    cases sig with
    | uiReady => exact wfInv_of_wf_eq (onMessage_uiReady_wf env sender s) h
    | hideUi => exact wfInv_of_wf_eq rfl h
    | unknown => exact wfInv_of_wf_eq rfl h
    | uiStart =>
      by_cases hidle : s.wf.status ≠ Status.idle
      · rw [onMessage_uiStart_noop env sender s (Or.inl hidle)]
        exact h
      · cases sender with
        | none =>
          rw [onMessage_uiStart_noop env none s (Or.inr rfl)]
          exact h
        | some t =>
          rw [onMessage_uiStart_go env t s hidle]
          rcases startWorkflow_shape env t with hs | ⟨jobs, hs⟩ <;>
            simp [WfInv, hs, idleState]
    | uiCancel =>
      rcases htab : tabEq sender s.wf.tabId with _ | _
      · rw [onMessage_uiCancel_noop env sender s htab]
        exact h
      · rw [onMessage_uiCancel_go env sender s htab]
        simp [WfInv, resetState, idleState]
    | uiSave rect =>
      by_cases hstat : s.wf.status ≠ Status.awaiting_selection
      · rw [onMessage_uiSave_noop env sender rect s (Or.inl hstat)]
        exact h
      · rcases htab : tabEq sender s.wf.tabId with _ | _
        · rw [onMessage_uiSave_noop env sender rect s (Or.inr htab)]
          exact h
        · rw [onMessage_uiSave_go env sender rect s hstat htab]
          rcases handleSave_shape env rect s.wf with hs | hs
          · simp [WfInv, hs, idleState]
          · have hsome : s.wf.tabId.isSome = true := tabEq_isSome htab
            simp [WfInv, hs, hsome]

theorem reachable_wfInv {s : SwState} (h : Reachable s) : WfInv s := by
  induction h with
  | init => exact wfInv_init
  | step ev _ ih => exact wfInv_step ev _ ih

/-! ### Concrete instances used by witnesses and counterexamples -/

/-- A concrete environment in which the fetch yields an empty queue and
capture fails. -/
def envStub : Env :=
  { parse := fun _ => none, fetched := .ok [], navOk := false,
    captured := .error (.hostError "capture failed"), uploadOk := .ok () }

/-- A concrete selection rectangle. -/
def rect0 : Rect := { x := 10, y := 10, w := 50, h := 50 }

/-- A concrete two-job queue. -/
def jobsTwo : List Job :=
  [{ id := "1", url := "http://a/" }, { id := "2", url := "http://b/" }]

/-- A concrete environment in which every external call succeeds: the URL
parser accepts everything as http, the fetch returns `jobsTwo`, navigation
completes, capture yields a 200×200 frame, uploads succeed. -/
def envOk : Env :=
  { parse := fun _ => some { protocol := "http:", origin := "http://x", pathname := "/" },
    fetched := .ok jobsTwo, navOk := true, captured := .ok (200, 200),
    uploadOk := .ok () }

/-- The worker state awaiting a selection for the first of the two jobs in
tab 1 (the state reached from `initState` by a start signal under
`envOk`). -/
def sAwait : SwState :=
  { wf := { status := .awaiting_selection, jobs := jobsTwo, index := 0, tabId := some 1 },
    isUiVisible := true }

/-! ### C4 -/

/-- C4: in every reachable worker state, `activeTabId` is set if and only
if `status` is not `idle` — every operation moving the status away from
`idle` records the tab, and every reset to `idle` clears it. -/
theorem claim_C4_activeTab_iff_running {s : SwState} (h : Reachable s) :
    s.wf.tabId.isSome = true ↔ s.wf.status ≠ Status.idle :=
  reachable_wfInv h

/-- Witness for C4 at the initial state. -/
theorem claim_C4_witness :
    (initState.wf.tabId.isSome = true ↔ initState.wf.status ≠ Status.idle) :=
  claim_C4_activeTab_iff_running Reachable.init

/-! ### C1 -/

/-- C1: every inbound signal handler checks the current status and the
sender before acting, so stale signals are no-ops on the workflow state: a
signal other than start-workflow received while the status is `idle`, and
a start-workflow received while the status is not `idle`, leave `status`,
`jobs`, `index` and `activeTabId` unchanged. -/
theorem claim_C1_stale_signals_noop (env : Env) (sender : Option Nat) {s : SwState}
    (hr : Reachable s) :
    (∀ sig : Sig, s.wf.status = Status.idle → sig ≠ Sig.uiStart →
      (onMessage env sender sig s).1.wf = s.wf)
    ∧ (s.wf.status ≠ Status.idle →
      (onMessage env sender Sig.uiStart s).1.wf = s.wf) := by
  constructor
  · intro sig hidle hne
    have htab : s.wf.tabId = none := by
      have hinv := reachable_wfInv hr
      rcases hv : s.wf.tabId with _ | v
      · rfl
      · exact absurd (hinv.mp (by rw [hv]; rfl)) (by simp [hidle])
    cases sig with
    | uiStart => exact absurd rfl hne
    | uiSave rect =>
      rw [onMessage_uiSave_noop env sender rect s (Or.inl (by simp [hidle]))]
    | uiCancel =>
      rw [onMessage_uiCancel_noop env sender s (by rw [htab]; exact tabEq_none sender)]
    | uiReady => rw [onMessage_uiReady_wf env sender s]
    | hideUi => rfl
    | unknown => rfl
  · intro hidle
    rw [onMessage_uiStart_noop env sender s (Or.inl hidle)]

/-- Witness for C1: a cancel-selection signal arriving at the idle initial
state is a no-op on the workflow state. -/
theorem claim_C1_witness :
    (onMessage envStub (some 7) Sig.uiCancel initState).1.wf = initState.wf :=
  (claim_C1_stale_signals_noop envStub (some 7) Reachable.init).1
    Sig.uiCancel rfl (by decide)

/-! ### C10 -/

/-- C10: a cancel signal whose sender tab equals `activeTabId` performs
the full reset to `idle` from every status (all non-idle statuses
included), while with `activeTabId` absent — in particular whenever the
status is `idle` in a reachable state — every cancel signal is ignored. -/
theorem claim_C10_cancel_reset (env : Env) (sender : Option Nat) (s : SwState) :
    (tabEq sender s.wf.tabId = true →
      (onMessage env sender Sig.uiCancel s).1.wf = idleState)
    ∧ (s.wf.tabId = none →
      onMessage env sender Sig.uiCancel s = (s, [])) := by
  constructor
  · intro h
    rw [onMessage_uiCancel_go env sender s h]
    rfl
  · intro h
    exact onMessage_uiCancel_noop env sender s (by rw [h]; exact tabEq_none sender)

/-- Witness for C10: a cancel from the active tab while awaiting a
selection fully resets the workflow state. -/
theorem claim_C10_witness :
    (onMessage envOk (some 1) Sig.uiCancel sAwait).1.wf = idleState :=
  (claim_C10_cancel_reset envOk (some 1) sAwait).1 rfl

/-! ### C2 -/

theorem handleSaveBody_ok_cond {env : Env} {rect : Rect} {s1 : WorkflowState}
    {r : StepOut} (h : handleSaveBody env rect s1 = .ok r) :
    ∃ job w hh region, getJobAt s1.jobs s1.index = some job ∧
      env.captured = .ok (w, hh) ∧ cropDataUrl w hh rect = .ok region ∧
      env.uploadOk = .ok () := by
  unfold handleSaveBody at h
  split at h
  · simp at h
  · rename_i x job hj
    split at h
    · simp at h
    · rename_i y w hh hc
      split at h
      · simp at h
      · rename_i z region hcr
        split at h
        · simp at h
        · rename_i u hu
          cases u
          exact ⟨job, w, hh, region, hj, hc, hcr, hu⟩

theorem handleSave_result (env : Env) (rect : Rect) (s : WorkflowState) :
    (handleSave env rect s).1 = idleState ∨
    ((handleSave env rect s).1 =
        { s with status := Status.awaiting_selection, index := s.index + 1 } ∧
      ∃ job w h region, getJobAt s.jobs s.index = some job ∧
        env.captured = .ok (w, h) ∧ cropDataUrl w h rect = .ok region ∧
        env.uploadOk = .ok ()) := by
  unfold handleSave
  rcases hb : handleSaveBody env rect { s with status := Status.uploading } with e | r
  · exact Or.inl rfl
  · rcases handleSaveBody_ok_shape hb with h1 | h1
    · exact Or.inl h1
    · exact Or.inr ⟨h1, handleSaveBody_ok_cond hb⟩

/-- C2: within a run the cursor advances by exactly one, and only
immediately after a successful upload of the job at the previous index
(itself requiring a successful capture and crop); when capture, cropping
or upload fails, the index is not incremented — the run is fully reset
instead. -/
theorem claim_C2_index_advances_only_on_upload (env : Env) (rect : Rect)
    (s : WorkflowState) :
    ((handleSave env rect s).1.index = s.index + 1 ∨
      (handleSave env rect s).1.index = 0)
    ∧ ((handleSave env rect s).1.index = s.index + 1 →
        ∃ job w h region, getJobAt s.jobs s.index = some job ∧
          env.captured = .ok (w, h) ∧ cropDataUrl w h rect = .ok region ∧
          env.uploadOk = .ok ())
    ∧ (∀ e, env.captured = .error e → (handleSave env rect s).1 = idleState)
    ∧ (∀ w h e, env.captured = .ok (w, h) → cropDataUrl w h rect = .error e →
        (handleSave env rect s).1 = idleState)
    ∧ (∀ e, env.uploadOk = .error e → (handleSave env rect s).1 = idleState) := by
  rcases handleSave_result env rect s with h1 | ⟨h1, job, w, h, region, hj, hc, hcr, hu⟩
  · refine ⟨Or.inr (by rw [h1]; rfl), ?_, fun _ _ => h1, fun _ _ _ _ _ => h1,
      fun _ _ => h1⟩
    intro hidx
    rw [h1] at hidx
    simp [idleState] at hidx
  · refine ⟨Or.inl (by rw [h1]), fun _ => ⟨job, w, h, region, hj, hc, hcr, hu⟩,
      ?_, ?_, ?_⟩
    · intro e he
      rw [he] at hc
      simp at hc
    · intro w1 h1x e hc1 hcr1
      rw [hc] at hc1
      simp only [Except.ok.injEq, Prod.mk.injEq] at hc1
      obtain ⟨rfl, rfl⟩ := hc1
      rw [hcr] at hcr1
      simp at hcr1
    · intro e he
      rw [he] at hu
      simp at hu

/-- Witness for C2: a failing capture makes the save step reset the run. -/
theorem claim_C2_witness :
    (handleSave envStub rect0 sAwait.wf).1 = idleState :=
  (claim_C2_index_advances_only_on_upload envStub rect0 sAwait.wf).2.2.1
    (Err.hostError "capture failed") rfl

/-! ### C3 -/

/-- C3: any failure raised while advancing a run step — the empty-queue
failure included — is caught at the top of that step and converted into a
full reset with a failure notice sent to the tab; after a step completes
the status is never an intermediate one (`fetching`, `navigating`,
`uploading`). -/
theorem claim_C3_step_failures_reset (env : Env) (tabId : Nat) (rect : Rect)
    (s : WorkflowState) :
    ((startWorkflow env tabId).1.status = Status.idle ∨
      (startWorkflow env tabId).1.status = Status.awaiting_selection)
    ∧ ((handleSave env rect s).1.status = Status.idle ∨
      (handleSave env rect s).1.status = Status.awaiting_selection)
    ∧ (env.fetched = .ok [] →
        startWorkflowBody env (fetchingState tabId) = .error Err.emptyQueue)
    ∧ (∀ e, startWorkflowBody env (fetchingState tabId) = .error e →
        (startWorkflow env tabId).1 = idleState ∧
        OutMsg.resetSelection (errMessage e) ∈ (startWorkflow env tabId).2)
    ∧ (∀ e, handleSaveBody env rect { s with status := Status.uploading } = .error e →
        (handleSave env rect s).1 = idleState ∧
        ∀ t, s.tabId = some t →
          OutMsg.resetSelection (errMessage e) ∈ (handleSave env rect s).2) := by
  refine ⟨?_, ?_, ?_, ?_, ?_⟩
  · rcases startWorkflow_shape env tabId with h1 | ⟨jobs, h1⟩
    · left; rw [h1]; rfl
    · right; rw [h1]
  · rcases handleSave_shape env rect s with h1 | h1
    · left; rw [h1]; rfl
    · right; rw [h1]
  · intro hf
    unfold startWorkflowBody
    rw [hf]
    rfl
  · intro e he
    unfold startWorkflow
    rw [he]
    exact ⟨rfl, by simp [reportError, notifyState]⟩
  · intro e he
    unfold handleSave
    rw [he]
    refine ⟨rfl, ?_⟩
    intro t ht
    simp [reportError, notifyState, ht]

/-- Witness for C3: under the environment whose fetch returns an empty
queue, starting resets to idle and sends the failure notice. -/
theorem claim_C3_witness :
    (startWorkflow envStub 3).1 = idleState ∧
    OutMsg.resetSelection (errMessage Err.emptyQueue) ∈ (startWorkflow envStub 3).2 := by
  have H := claim_C3_step_failures_reset envStub 3 rect0 idleState
  exact H.2.2.2.1 Err.emptyQueue (H.2.2.1 rfl)

/-! ### C5 -/

/-- C5 (amended): a save-selection signal is acted upon only when the
status is `awaiting_selection` and the sender tab equals `activeTabId`;
from any other tab, or in any other status, it is ignored with the worker
state unchanged — hence among duplicate save-selection signals arriving
while the status is not `awaiting_selection`, none (and so at most one)
is acted upon. -/
theorem claim_C5_save_guarded (env : Env) (sender : Option Nat) (rect : Rect)
    (s : SwState) :
    (s.wf.status ≠ Status.awaiting_selection ∨ tabEq sender s.wf.tabId = false →
      onMessage env sender (Sig.uiSave rect) s = (s, []))
    ∧ (s.wf.status ≠ Status.awaiting_selection →
        ∀ evs : List Event,
          (∀ ev ∈ evs, ∃ env2 snd r, ev = Event.message env2 snd (Sig.uiSave r)) →
          runEvents evs s = s) := by
  constructor
  · exact onMessage_uiSave_noop env sender rect s
  · intro hstat evs
    induction evs with
    | nil => intro _; rfl
    | cons ev rest ih =>
      intro hall
      obtain ⟨env2, snd, r, rfl⟩ := hall ev (List.mem_cons_self ev rest)
      have hstep : stepState (Event.message env2 snd (Sig.uiSave r)) s = s := by
        show (onMessage env2 snd (Sig.uiSave r) s).1 = s
        rw [onMessage_uiSave_noop env2 snd r s (Or.inl hstat)]
      show runEvents (Event.message env2 snd (Sig.uiSave r) :: rest) s = s
      simp only [runEvents, List.foldl_cons]
      rw [hstep]
      exact ih fun e he => hall e (List.mem_cons_of_mem _ he)

/-- Witness for C5: a save-selection at the idle initial state is fully
ignored. -/
theorem claim_C5_witness :
    onMessage envStub (some 2) (Sig.uiSave rect0) initState = (initState, []) :=
  (claim_C5_save_guarded envStub (some 2) rect0 initState).1 (Or.inl (by decide))

/-- C5 counterexample: in the reachable state awaiting a selection for the
first of two jobs, two identical (duplicate) save-selection signals from
the active tab are each acted upon — the first uploads job 1 and moves the
run to the second job, the second uploads job 2 — so more than one
duplicate save-selection signal is acted upon, each changing the workflow
state. -/
theorem claim_C5_counterexample :
    Reachable sAwait ∧
    (stepState (Event.message envOk (some 1) (Sig.uiSave rect0)) sAwait).wf ≠ sAwait.wf ∧
    (stepState (Event.message envOk (some 1) (Sig.uiSave rect0))
        (stepState (Event.message envOk (some 1) (Sig.uiSave rect0)) sAwait)).wf ≠
      (stepState (Event.message envOk (some 1) (Sig.uiSave rect0)) sAwait).wf := by
  refine ⟨?_, ?_, ?_⟩
  · have h : stepState (Event.message envOk (some 1) Sig.uiStart) initState = sAwait := by
      decide
    exact h ▸ Reachable.step (Event.message envOk (some 1) Sig.uiStart) Reachable.init
  · decide
  · decide

/-! ### C6 -/

/-- Check that an event is not an early load-complete for the target tab:
every complete update for the tab is dated strictly after the timeout
bound. -/
def lateComplete (tabId : Nat) : NavEvent → Bool
  | .update uid c t => if uid = tabId ∧ c = true then decide (navigationTimeoutMs < t) else true
  | .timerFire _ => true

theorem navStep_settled (tabId : Nat) (s : NavState) (e : NavEvent)
    (h : s.settled = true) : navStep tabId s e = s := by
  cases e with
  | timerFire t => simp [navStep, h]
  | update uid c t => simp [navStep, h]

theorem navFold_settled (tabId : Nat) (evs : List NavEvent) (s : NavState)
    (h : s.settled = true) : evs.foldl (navStep tabId) s = s := by
  induction evs with
  | nil => rfl
  | cons e rest ih =>
    rw [List.foldl_cons, navStep_settled tabId s e h]
    exact ih

theorem navRun_outcome_eq (tabId : Nat) (events : List NavEvent) :
    (navRun tabId events).outcome = navDecide tabId events := by
  induction events with
  | nil => rfl
  | cons e rest ih =>
    cases e with
    | timerFire t =>
      show (List.foldl (navStep tabId) (navStep tabId navInit (.timerFire t)) rest).outcome = _
      have h1 : navStep tabId navInit (NavEvent.timerFire t) =
          { settled := true, listenerAttached := false, timerArmed := false,
            outcome := some NavOutcome.timedOut } := rfl
      rw [h1, navFold_settled tabId rest _ rfl]
      rfl
    | update uid c t =>
      by_cases hd : uid = tabId ∧ c = true
      · show (List.foldl (navStep tabId) (navStep tabId navInit (.update uid c t)) rest).outcome = _
        have h1 : navStep tabId navInit (NavEvent.update uid c t) =
            { settled := true, listenerAttached := false, timerArmed := false,
              outcome := some (NavOutcome.resolved (t + settleDelayMs)) } := by
          simp [navStep, navInit, hd.1, hd.2]
        rw [h1, navFold_settled tabId rest _ rfl]
        show some (NavOutcome.resolved (t + settleDelayMs)) =
          navDecide tabId (NavEvent.update uid c t :: rest)
        simp only [navDecide]
        rw [if_pos hd]
      · have h1 : navStep tabId navInit (NavEvent.update uid c t) = navInit := by
          by_cases huid : uid = tabId
          · have hc : c = false := by
              cases c
              · rfl
              · exact absurd ⟨huid, rfl⟩ hd
            subst hc
            simp [navStep, navInit, huid]
          · simp [navStep, navInit, huid]
        show (List.foldl (navStep tabId) (navStep tabId navInit (.update uid c t)) rest).outcome = _
        rw [h1]
        have h2 : (List.foldl (navStep tabId) navInit rest).outcome = navDecide tabId rest := ih
        rw [h2]
        show navDecide tabId rest = navDecide tabId (NavEvent.update uid c t :: rest)
        simp only [navDecide]
        rw [if_neg hd]

theorem navStep_inv (tabId : Nat) (s : NavState) (e : NavEvent)
    (h : s.settled = s.outcome.isSome ∧
      (s.outcome.isSome = true → s.listenerAttached = false ∧ s.timerArmed = false)) :
    (navStep tabId s e).settled = (navStep tabId s e).outcome.isSome ∧
    ((navStep tabId s e).outcome.isSome = true →
      (navStep tabId s e).listenerAttached = false ∧
      (navStep tabId s e).timerArmed = false) := by
  cases e with
  | timerFire t =>
    simp only [navStep]
    split
    · exact h
    · split
      · exact h
      · exact ⟨rfl, fun _ => ⟨rfl, rfl⟩⟩
  | update uid c t =>
    simp only [navStep]
    split
    · exact h
    · split
      · exact h
      · split
        · exact h
        · split
          · exact ⟨rfl, fun _ => ⟨rfl, rfl⟩⟩
          · exact h

theorem navRun_inv (tabId : Nat) (events : List NavEvent) :
    (navRun tabId events).settled = (navRun tabId events).outcome.isSome ∧
    ((navRun tabId events).outcome.isSome = true →
      (navRun tabId events).listenerAttached = false ∧
      (navRun tabId events).timerArmed = false) := by
  suffices H : ∀ s : NavState,
      (s.settled = s.outcome.isSome ∧
        (s.outcome.isSome = true → s.listenerAttached = false ∧ s.timerArmed = false)) →
      ((events.foldl (navStep tabId) s).settled =
          (events.foldl (navStep tabId) s).outcome.isSome ∧
        ((events.foldl (navStep tabId) s).outcome.isSome = true →
          (events.foldl (navStep tabId) s).listenerAttached = false ∧
          (events.foldl (navStep tabId) s).timerArmed = false)) by
    exact H navInit (by simp [navInit])
  induction events with
  | nil => exact fun s hs => hs
  | cons e rest ih =>
    intro s hs
    rw [List.foldl_cons]
    exact ih _ (navStep_inv tabId s e hs)

theorem navDecide_resolved {tabId : Nat} {events : List NavEvent} {t : Nat}
    (h : navDecide tabId events = some (NavOutcome.resolved t)) :
    ∃ te, NavEvent.update tabId true te ∈ events ∧ t = te + settleDelayMs := by
  induction events with
  | nil => simp [navDecide] at h
  | cons e rest ih =>
    cases e with
    | timerFire t2 => simp [navDecide] at h
    | update uid c t2 =>
      by_cases hd : uid = tabId ∧ c = true
      · simp only [navDecide] at h
        rw [if_pos hd] at h
        injection h with h
        injection h with h
        obtain ⟨rfl, rfl⟩ := hd
        exact ⟨t2, List.mem_cons_self _ _, h.symm⟩
      · simp only [navDecide] at h
        rw [if_neg hd] at h
        obtain ⟨te, hm, ht⟩ := ih h
        exact ⟨te, List.mem_cons_of_mem _ hm, ht⟩

theorem navDecide_timeout {tabId : Nat} {events : List NavEvent}
    (hmem : NavEvent.timerFire navigationTimeoutMs ∈ events)
    (hsort : events.Pairwise (fun a b => a.time ≤ b.time))
    (hlate : events.all (lateComplete tabId) = true) :
    navDecide tabId events = some NavOutcome.timedOut := by
  induction events with
  | nil => cases hmem
  | cons e rest ih =>
    cases e with
    | timerFire t2 => rfl
    | update uid c t2 =>
      have hmem2 : NavEvent.timerFire navigationTimeoutMs ∈ rest := by
        rcases List.mem_cons.mp hmem with h | h
        · simp at h
        · exact h
      by_cases hd : uid = tabId ∧ c = true
      · exfalso
        have h1 : navigationTimeoutMs < t2 := by
          have hall := List.all_eq_true.mp hlate _ (List.mem_cons_self _ _)
          simp only [lateComplete] at hall
          rw [if_pos hd] at hall
          exact of_decide_eq_true hall
        have h2 : t2 ≤ navigationTimeoutMs := by
          have hp := List.pairwise_cons.mp hsort
          simpa [NavEvent.time] using hp.1 _ hmem2
        omega
      · simp only [navDecide]
        rw [if_neg hd]
        refine ih hmem2 (List.pairwise_cons.mp hsort).2 ?_
        rw [List.all_eq_true]
        exact fun x hx => List.all_eq_true.mp hlate x (List.mem_cons_of_mem _ hx)

/-- C6: a navigate wait delivers exactly one outcome, determined by the
first deciding event — success (at the load-complete time plus the 250ms
settle delay) on a load-complete for the target tab, timeout rejection on
a timer fire; once delivered, the `onUpdated` listener is detached (as is
the timer) and no further event changes the promise state; and when the
timer fires at the 60-second bound with every load-complete for the tab
occurring only later, the outcome is the `NavigationTimeout` failure. -/
theorem claim_C6_navigate_outcome (tabId : Nat) (events : List NavEvent) :
    ((navRun tabId events).outcome = navDecide tabId events)
    ∧ ((navRun tabId events).settled = (navRun tabId events).outcome.isSome)
    ∧ ((navRun tabId events).outcome.isSome = true →
        (navRun tabId events).listenerAttached = false ∧
        (navRun tabId events).timerArmed = false)
    ∧ (∀ (s : NavState) (e : NavEvent), s.settled = true → navStep tabId s e = s)
    ∧ (∀ t, navDecide tabId events = some (NavOutcome.resolved t) →
        ∃ te, NavEvent.update tabId true te ∈ events ∧ t = te + settleDelayMs)
    ∧ (NavEvent.timerFire navigationTimeoutMs ∈ events →
        events.Pairwise (fun a b => a.time ≤ b.time) →
        events.all (lateComplete tabId) = true →
        (navRun tabId events).outcome = some NavOutcome.timedOut) :=
  ⟨navRun_outcome_eq tabId events, (navRun_inv tabId events).1,
    (navRun_inv tabId events).2, navStep_settled tabId,
    fun _ h => navDecide_resolved h,
    fun h1 h2 h3 => by
      rw [navRun_outcome_eq]
      exact navDecide_timeout h1 h2 h3⟩

/-- A concrete navigation-event trace: a non-complete update, the timer
firing at the bound, and a late load-complete. -/
def navEvents0 : List NavEvent :=
  [NavEvent.update 1 false 100, NavEvent.timerFire 60000, NavEvent.update 1 true 70000]

/-- Witness for C6: on the concrete trace the wait times out. -/
theorem claim_C6_witness :
    (navRun 1 navEvents0).outcome = some NavOutcome.timedOut :=
  (claim_C6_navigate_outcome 1 navEvents0).2.2.2.2.2 (by decide) (by decide) (by decide)

/-! ### C7 -/

theorem retryLoop_allFail (ack : Nat → Bool) (h : ∀ i, ack i = false) :
    ∀ n i : Nat, retryLoop ack i n = (false, n, List.replicate n 200) := by
  intro n
  induction n with
  | zero => intro i; rfl
  | succ r ih =>
    intro i
    simp only [retryLoop, h i]
    rw [ih (i + 1)]
    rfl

/-- C7: with a recipient that never acknowledges, `sendMessageWithRetry`
makes exactly `attempts` send attempts (10 by default), each followed by
the fixed 200ms backoff, then returns `false` — it is a total function
into `RetryTrace`, never a thrown error — logging a warning carrying the
attempt count and the message type. -/
theorem claim_C7_retry_exhausts (ack : Nat → Bool) (message : ChromeMsg)
    (h : ∀ i, ack i = false) :
    sendMessageWithRetry ack message =
      { result := false, sends := 10, delays := List.replicate 10 200,
        warned := some (10, msgTypeField message) }
    ∧ (∀ attempts : Nat, sendMessageWithRetry ack message attempts =
        { result := false, sends := attempts, delays := List.replicate attempts 200,
          warned := some (attempts, msgTypeField message) }) := by
  have key : ∀ attempts : Nat, sendMessageWithRetry ack message attempts =
      { result := false, sends := attempts, delays := List.replicate attempts 200,
        warned := some (attempts, msgTypeField message) } := by
    intro attempts
    unfold sendMessageWithRetry
    rw [retryLoop_allFail ack h attempts 0]
    rfl
  exact ⟨key 10, key⟩

/-- Witness for C7 on a concrete silent recipient and message. -/
theorem claim_C7_witness :
    sendMessageWithRetry (fun _ => false) { type := "START_SELECT" } =
      { result := false, sends := 10, delays := List.replicate 10 200,
        warned := some (10, some "START_SELECT") } := by
  rw [(claim_C7_retry_exhausts (fun _ => false) { type := "START_SELECT" }
    (fun _ => rfl)).1]
  rfl

/-! ### C8 -/

theorem clamp_spec (v lo hi : Int) (h : lo ≤ hi) :
    lo ≤ clamp v lo hi ∧ clamp v lo hi ≤ hi ∧
    (lo ≤ v → v ≤ hi → clamp v lo hi = v) ∧
    (v < lo → clamp v lo hi = lo) ∧ (hi < v → clamp v lo hi = hi) := by
  unfold clamp
  refine ⟨le_max_left _ _, max_le h (min_le_left _ _), ?_, ?_, ?_⟩
  · intro h1 h2
    rw [min_eq_right h2, max_eq_right h1]
  · intro h1
    exact max_eq_left (le_trans (min_le_right _ _) (le_of_lt h1))
  · intro h1
    rw [min_eq_left (le_of_lt h1), max_eq_right h]

theorem cropDataUrl_eq (width height : Int) (rect : Rect) :
    cropDataUrl width height rect =
      if clamp rect.w 1 (width - clamp rect.x 0 (width - 1)) < 5 ∨
          clamp rect.h 1 (height - clamp rect.y 0 (height - 1)) < 5 then
        .error Err.cropTooSmall
      else
        .ok (clamp rect.x 0 (width - 1), clamp rect.y 0 (height - 1),
          clamp rect.w 1 (width - clamp rect.x 0 (width - 1)),
          clamp rect.h 1 (height - clamp rect.y 0 (height - 1))) := rfl

/-- C8 (amended): for a frame with positive dimensions, `cropDataUrl`
clamps the requested rectangle into frame bounds — each origin coordinate
into `[0, dimension-1]`, each extent into `[1, dimension-origin]` — and
fails, with `CropTooSmall` and with no other error, exactly when either
clamped extent is below 5 pixels; a rectangle lying fully outside the
frame therefore either fails with `CropTooSmall` or is clamped into the
frame, never raising an unrelated error (it does not always fail: see the
counterexample). -/
theorem claim_C8_crop_clamps (width height : Int) (rect : Rect)
    (hw : 0 < width) (hh : 0 < height) :
    ∃ sx sy sw sh : Int,
      (0 ≤ sx ∧ sx ≤ width - 1 ∧
        (0 ≤ rect.x → rect.x ≤ width - 1 → sx = rect.x) ∧
        (rect.x < 0 → sx = 0) ∧ (width - 1 < rect.x → sx = width - 1))
      ∧ (0 ≤ sy ∧ sy ≤ height - 1 ∧
        (0 ≤ rect.y → rect.y ≤ height - 1 → sy = rect.y) ∧
        (rect.y < 0 → sy = 0) ∧ (height - 1 < rect.y → sy = height - 1))
      ∧ (1 ≤ sw ∧ sw ≤ width - sx ∧
        (1 ≤ rect.w → rect.w ≤ width - sx → sw = rect.w) ∧
        (rect.w < 1 → sw = 1) ∧ (width - sx < rect.w → sw = width - sx))
      ∧ (1 ≤ sh ∧ sh ≤ height - sy ∧
        (1 ≤ rect.h → rect.h ≤ height - sy → sh = rect.h) ∧
        (rect.h < 1 → sh = 1) ∧ (height - sy < rect.h → sh = height - sy))
      ∧ (cropDataUrl width height rect = .error Err.cropTooSmall ↔ sw < 5 ∨ sh < 5)
      ∧ (¬ (sw < 5 ∨ sh < 5) → cropDataUrl width height rect = .ok (sx, sy, sw, sh))
      ∧ (∀ e, cropDataUrl width height rect = .error e → e = Err.cropTooSmall) := by
  have hx := clamp_spec rect.x 0 (width - 1) (by omega)
  have hy := clamp_spec rect.y 0 (height - 1) (by omega)
  have hwid := clamp_spec rect.w 1 (width - clamp rect.x 0 (width - 1))
    (by have := hx.2.1; omega)
  have hhgt := clamp_spec rect.h 1 (height - clamp rect.y 0 (height - 1))
    (by have := hy.2.1; omega)
  refine ⟨clamp rect.x 0 (width - 1), clamp rect.y 0 (height - 1),
    clamp rect.w 1 (width - clamp rect.x 0 (width - 1)),
    clamp rect.h 1 (height - clamp rect.y 0 (height - 1)),
    hx, hy, hwid, hhgt, ?_, ?_, ?_⟩
  · rw [cropDataUrl_eq]
    by_cases hc : clamp rect.w 1 (width - clamp rect.x 0 (width - 1)) < 5 ∨
        clamp rect.h 1 (height - clamp rect.y 0 (height - 1)) < 5
    · rw [if_pos hc]
      simp [hc]
    · rw [if_neg hc]
      simp [hc]
  · intro hc
    rw [cropDataUrl_eq, if_neg hc]
  · intro e he
    rw [cropDataUrl_eq] at he
    split at he
    · injection he with he
      exact he.symm
    · simp at he

/-- Witness for C8 on a 100×100 frame and an in-bounds rectangle. -/
theorem claim_C8_witness :
    cropDataUrl 100 100 rect0 = .ok (10, 10, 50, 50) := by
  obtain ⟨sx, sy, sw, sh, hx, hy, hwid, hhgt, hiff, hok, huniq⟩ :=
    claim_C8_crop_clamps 100 100 rect0 (by decide) (by decide)
  have hsx : sx = rect0.x := hx.2.2.1 (by decide) (by decide)
  have hsy : sy = rect0.y := hy.2.2.1 (by decide) (by decide)
  have hsw : sw = rect0.w := hwid.2.2.1 (by decide) (by rw [hsx]; decide)
  have hsh : sh = rect0.h := hhgt.2.2.1 (by decide) (by rw [hsy]; decide)
  have h5 : ¬ (sw < 5 ∨ sh < 5) := by
    rw [hsw, hsh]
    decide
  rw [hok h5, hsx, hsy, hsw, hsh]
  rfl

/-- C8 counterexample: the rectangle with `x = -100`, `w = 50` lies fully
outside a 100×100 frame (it ends at `x = -50`, left of the frame), yet
`cropDataUrl` does not fail with `CropTooSmall`: the origin is clamped to
0, the width survives the clamp, and the crop succeeds on the region
`(0, 0, 50, 50)`. -/
theorem claim_C8_counterexample :
    ((-100 : Int) + 50 ≤ 0) ∧
    cropDataUrl 100 100 { x := -100, y := 0, w := 50, h := 50 } =
      .ok (0, 0, 50, 50) := by
  constructor
  · decide
  · rfl

/-! ### C9 -/

theorem isAllowed_none (parse : String → Option URLParts) (allowList : List String)
    (url : String) (h : parse url = none) :
    isAllowed parse allowList url = false := by
  unfold isAllowed
  rw [h]

theorem isAllowed_some (parse : String → Option URLParts) (allowList : List String)
    (url : String) (u : URLParts) (h : parse url = some u) :
    isAllowed parse allowList url =
      (if u.protocol ≠ "http:" ∧ u.protocol ≠ "https:" then false
       else if allowList.contains "<all_urls>" then true
       else allowList.any fun allowed =>
         match parse allowed with
         | none => false
         | some a =>
           if u.origin ≠ a.origin then false
           else u.pathname.startsWith a.pathname) := by
  unfold isAllowed
  rw [h]

theorem allowEntry_iff (parse : String → Option URLParts) (u : URLParts) (a : String) :
    ((match parse a with
      | none => false
      | some pa =>
        if u.origin ≠ pa.origin then false
        else u.pathname.startsWith pa.pathname) = true) ↔
    ∃ pa, parse a = some pa ∧ u.origin = pa.origin ∧
      u.pathname.startsWith pa.pathname = true := by
  rcases hpa : parse a with _ | pa
  · simp
  · show (if u.origin ≠ pa.origin then false
        else u.pathname.startsWith pa.pathname) = true ↔ _
    by_cases ho : u.origin ≠ pa.origin
    · rw [if_pos ho]
      simp [ho]
    · rw [if_neg ho]
      have ho2 : u.origin = pa.origin := not_not.mp ho
      constructor
      · intro hs
        exact ⟨pa, rfl, ho2, hs⟩
      · rintro ⟨pa2, hpa2, _, hs⟩
        injection hpa2 with hpa2
        subst hpa2
        exact hs

/-- C9: `isAllowed` accepts a candidate URL exactly when it parses with an
http or https scheme and either the allow list contains the wildcard
entry, or some entry parses to the same origin with a pathname that is a
prefix of the candidate's pathname; an unparseable URL, and a non-http(s)
scheme, are always rejected. -/
theorem claim_C9_allow_policy (parse : String → Option URLParts)
    (allowList : List String) (url : String) :
    (isAllowed parse allowList url = true ↔
      ∃ u, parse url = some u ∧ (u.protocol = "http:" ∨ u.protocol = "https:") ∧
        (allowList.contains "<all_urls>" = true ∨
          ∃ a ∈ allowList, ∃ pa, parse a = some pa ∧ u.origin = pa.origin ∧
            u.pathname.startsWith pa.pathname = true))
    ∧ (parse url = none → isAllowed parse allowList url = false)
    ∧ (∀ u, parse url = some u → u.protocol ≠ "http:" → u.protocol ≠ "https:" →
        isAllowed parse allowList url = false) := by
  rcases hp : parse url with _ | u
  · rw [isAllowed_none parse allowList url hp]
    refine ⟨by simp, fun _ => rfl, fun v hv _ _ => by simp at hv⟩
  · rw [isAllowed_some parse allowList url u hp]
    by_cases hproto : u.protocol ≠ "http:" ∧ u.protocol ≠ "https:"
    · rw [if_pos hproto]
      refine ⟨?_, fun h2 => Option.noConfusion h2, fun v hv h1 h2 => rfl⟩
      constructor
      · intro hfalse
        exact absurd hfalse (by decide)
      · rintro ⟨v, hv, hOr, _⟩
        injection hv with hv
        subst hv
        rcases hOr with h1 | h1
        · exact absurd h1 hproto.1
        · exact absurd h1 hproto.2
    · have hpOr : u.protocol = "http:" ∨ u.protocol = "https:" := by
        rcases not_and_or.mp hproto with h1 | h1
        · exact Or.inl (not_not.mp h1)
        · exact Or.inr (not_not.mp h1)
      rw [if_neg hproto]
      by_cases hwild : allowList.contains "<all_urls>" = true
      · rw [if_pos hwild]
        refine ⟨?_, fun h2 => by simp at h2, ?_⟩
        · constructor
          · intro _
            exact ⟨u, rfl, hpOr, Or.inl hwild⟩
          · intro _
            rfl
        · intro v hv h1 h2
          injection hv with hv
          subst hv
          rcases hpOr with h3 | h3
          · exact absurd h3 h1
          · exact absurd h3 h2
      · rw [if_neg hwild]
        refine ⟨?_, fun h2 => by simp at h2, ?_⟩
        · constructor
          · intro hany
            rw [List.any_eq_true] at hany
            obtain ⟨a, ha, hpa⟩ := hany
            exact ⟨u, rfl, hpOr, Or.inr ⟨a, ha, (allowEntry_iff parse u a).mp hpa⟩⟩
          · rintro ⟨v, hv, _, hrest⟩
            injection hv with hv
            subst hv
            rcases hrest with hw | ⟨a, ha, pa, hpa, ho, hs⟩
            · exact absurd hw hwild
            · rw [List.any_eq_true]
              exact ⟨a, ha, (allowEntry_iff parse u a).mpr ⟨pa, hpa, ho, hs⟩⟩
        · intro v hv h1 h2
          injection hv with hv
          subst hv
          rcases hpOr with h3 | h3
          · exact absurd h3 h1
          · exact absurd h3 h2

/-- Witness for C9: with a parser on which every URL fails, the policy
rejects. -/
theorem claim_C9_witness :
    isAllowed (fun _ => none) ALLOW_LIST "http://example.com/" = false :=
  (claim_C9_allow_policy (fun _ => none) ALLOW_LIST "http://example.com/").2.1 rfl
